import Mathlib

/-
  Verification of the code emitter in quad_gen/gaussian_mlp.py (function
  generate) and its JAX/Flax parameter adapter, against the repository
  specification.

  Modelling conventions:
  - A numpy tensor is modelled by its shape (explicit Nat dimensions, the
    source reads trainable_shapes[n]) together with its entries.  Entries are
    modelled by the literal text Python interpolation produces for them
    (f-string formatting of the numeric values is performed by the external
    numpy/CPython runtime, outside this repository); the emitter only ever
    concatenates that text, so this loses nothing relevant to the claims.
  - Python int division int(n_layers/2) truncates toward zero, hence Int.tdiv.
  - Python range(a, b) over ints is pyRange a b.
  - Python string slicing s[:-1] is String.dropRight 1.
  - The source never raises: generate is a total function of the tensor list.
    The optional file write (if output_path: open(...).write(source)) is
    modelled by returning the list of (path, content) writes performed.
  - The preamble constants imported from quad_gen.code_blocks are not part of
    src/; they are modelled from the spec as abstract fixed strings.
-/

set_option maxRecDepth 20000

/-- A parameter tensor as the emitter sees it: rank 2 (weight matrix, shape
(r, c)) or rank 1 (bias vector, shape (d,)).  Entries carry the literal text
their numeric values print as. -/
inductive Tensor where
  | mat (r c : Nat) (vals : List (List String))
  | vec (d : Nat) (vals : List String)
deriving DecidableEq

/-- Python range(a, b) for ints. -/
def pyRange (a b : Int) : List Int :=
  (List.range (b - a).toNat).map (fun (k : Nat) => a + (k : Int))

/-- n_layers = len(trainable_shapes) - 1 (Python int, -1 on an empty list). -/
def nLayersOf (ts : List Tensor) : Int :=
  (ts.length : Int) - 1

/-- int(n_layers/2): the row count declared for the structure array and the
real-layer count used by the evaluation-loop emitter. -/
def declaredRows (ts : List Tensor) : Int :=
  Int.tdiv (nLayersOf ts) 2

/-- The tensors the main loop visits: for n in range(n_layers). -/
def realTensors (ts : List Tensor) : List Tensor :=
  ts.take (ts.length - 1)

/-- One row of a weight array: weight += "{"; each value and a comma; drop the
trailing comma; "},". -/
def emitRow (w : String) (row : List String) : String :=
  ((row.foldl (fun acc v => acc ++ v ++ ",") (w ++ "\x7b")).dropRight 1) ++ "\x7d,"

/-- The weight-array declaration emitted for rank-2 tensor number nw. -/
def emitWeightStr (nw r c : Nat) (vals : List (List String)) : String :=
  ((vals.foldl emitRow
      ("static const float layer_" ++ toString nw ++ "_weight[" ++ toString r ++
        "][" ++ toString c ++ "] = \x7b")).dropRight 1) ++ "\x7d;\n"

/-- The bias-array declaration emitted for rank-1 tensor number nb. -/
def emitBiasStr (nb d : Nat) (vals : List String) : String :=
  ((vals.foldl (fun acc v => acc ++ v ++ ",")
      ("static const float layer_" ++ toString nb ++ "_bias[" ++ toString d ++
        "] = \x7b")).dropRight 1) ++ "\x7d;\n"

/-- The output-buffer declaration emitted for rank-1 tensor number nb. -/
def emitOutputStr (nb d : Nat) : String :=
  "static float output_" ++ toString nb ++ "[" ++ toString d ++ "];\n"

/-- The weight strings collected by the main loop (rank-2 branch, counter
n_weight). -/
def weightStrsGo : Nat → List Tensor → List String
  | _, [] => []
  | nw, Tensor.mat r c vals :: rest => emitWeightStr nw r c vals :: weightStrsGo (nw + 1) rest
  | nw, Tensor.vec _ _ :: rest => weightStrsGo nw rest

def weightStrsOf (ts : List Tensor) : List String :=
  weightStrsGo 0 (realTensors ts)

/-- The bias strings collected by the main loop (rank-1 branch, counter
n_bias). -/
def biasStrsGo : Nat → List Tensor → List String
  | _, [] => []
  | nb, Tensor.vec d vals :: rest => emitBiasStr nb d vals :: biasStrsGo (nb + 1) rest
  | nb, Tensor.mat _ _ _ :: rest => biasStrsGo nb rest

def biasStrsOf (ts : List Tensor) : List String :=
  biasStrsGo 0 (realTensors ts)

/-- The output-buffer strings collected by the main loop (rank-1 branch, same
n_bias counter). -/
def outputStrsGo : Nat → List Tensor → List String
  | _, [] => []
  | nb, Tensor.vec d _ :: rest => emitOutputStr nb d :: outputStrsGo (nb + 1) rest
  | nb, Tensor.mat _ _ _ :: rest => outputStrsGo nb rest

def outputStrsOf (ts : List Tensor) : List String :=
  outputStrsGo 0 (realTensors ts)

/-- The (shape[0], shape[1]) pairs the main loop appends to the structure
array, one per rank-2 tensor it visits, in order. -/
def structPairsOf (ts : List Tensor) : List (Nat × Nat) :=
  (realTensors ts).filterMap fun t =>
    match t with
    | Tensor.mat r c _ => some (r, c)
    | Tensor.vec _ _ => none

/-- The text appended to the structure array for one rank-2 tensor. -/
def renderPair (p : Nat × Nat) : String :=
  "\x7b" ++ toString p.1 ++ ", " ++ toString p.2 ++ "\x7d,"

/-- The complete structure-array declaration: header with int(n_layers/2) as
the declared row count, the appended pairs, trailing comma dropped, "};". -/
def structureStr (ts : List Tensor) : String :=
  (("static const int structure[" ++ toString (declaredRows ts) ++ "][2] = \x7b" ++
      String.join ((structPairsOf ts).map renderPair)).dropRight 1) ++ "\x7d;\n"

/-- The first evaluation loop (layer 0, reads state_array, applies tanhf);
emitted unconditionally. -/
def input_for_loop : String :=
  "\n\t\tfor (int i = 0; i < structure[0][1]; i++) \x7b\n\t\t\toutput_0[i] = 0;\n\t\t\tfor (int j = 0; j < structure[0][0]; j++) \x7b\n\t\t\t\toutput_0[i] += state_array[j] * layer_0_weight[j][i];\n\t\t\t\x7d\n\t\t\toutput_0[i] += layer_0_bias[i];\n\t\t\toutput_0[i] = tanhf(output_0[i]);\n\t\t\x7d\n\t"

/-- The middle evaluation loop for layer n (reads output_(n-1), applies
tanhf); emitted for n in range(1, int(n_layers/2)-1). -/
def for_loop (n : Int) : String :=
  "\n\t\tfor (int i = 0; i < structure[" ++ toString n ++
  "][1]; i++) \x7b\n\t\t\toutput_" ++ toString n ++
  "[i] = 0;\n\t\t\tfor (int j = 0; j < structure[" ++ toString n ++
  "][0]; j++) \x7b\n\t\t\t\toutput_" ++ toString n ++
  "[i] += output_" ++ toString (n - 1) ++
  "[j] * layer_" ++ toString n ++
  "_weight[j][i];\n\t\t\t\x7d\n\t\t\toutput_" ++ toString n ++
  "[i] += layer_" ++ toString n ++
  "_bias[i];\n\t\t\toutput_" ++ toString n ++
  "[i] = tanhf(output_" ++ toString n ++
  "[i]);\n\t\t\x7d\n\t\t"

/-- The final evaluation loop, for n = int(n_layers/2)-1: identical to the
middle loop except that no tanhf line is emitted. -/
def output_for_loop (n : Int) : String :=
  "\n\t\tfor (int i = 0; i < structure[" ++ toString n ++
  "][1]; i++) \x7b\n\t\t\toutput_" ++ toString n ++
  "[i] = 0;\n\t\t\tfor (int j = 0; j < structure[" ++ toString n ++
  "][0]; j++) \x7b\n\t\t\t\toutput_" ++ toString n ++
  "[i] += output_" ++ toString (n - 1) ++
  "[j] * layer_" ++ toString n ++
  "_weight[j][i];\n\t\t\t\x7d\n\t\t\toutput_" ++ toString n ++
  "[i] += layer_" ++ toString n ++
  "_bias[i];\n\t\t\x7d\n\t\t"

/-- The for_loops list: first loop, middle loops, final loop. -/
def forLoopsOf (ts : List Tensor) : List String :=
  input_for_loop :: (pyRange 1 (declaredRows ts - 1)).map for_loop ++
    [output_for_loop (declaredRows ts - 1)]

/-- One control-output copy statement, as it appears in the assignment
block. -/
def copyStmt (j : Nat) (n : Int) : String :=
  "control_n[" ++ toString j ++ "] = output_" ++ toString n ++ "[" ++ toString j ++ "];"

/-- The assignment block: exactly four fixed copies control_n[0..3] from
output_n, n = int(n_layers/2)-1. -/
def assignment (n : Int) : String :=
  "\n\t\t" ++ copyStmt 0 n ++ "\n\t\t" ++ copyStmt 1 n ++ "\n\t\t" ++ copyStmt 2 n ++
  "\n\t\t" ++ copyStmt 3 n ++ "\t\n\t"

/-- Python string accumulation: s += x over a list (foldl of append). -/
def appendAll (s : String) (l : List String) : String :=
  l.foldl (fun a b => a ++ b) s

def evalHead : String :=
  "\n\tvoid networkEvaluate(float *state_array, float *control_n) \x7b\n\t"

def evalClose : String :=
  "\n\t\x7d\n\t"

/-- The networkEvaluate function: header, the evaluation loops, the
assignment block, closing bracket. -/
def controllerEvalOf (ts : List Tensor) : String :=
  appendAll evalHead (forLoopsOf ts) ++ assignment (declaredRows ts - 1) ++ evalClose

/-- Modelled from the spec: the fixed header preamble emitted first.  The
quad_gen.code_blocks module holding this constant is imported by the source
but is not under src/; per the spec it is a fixed string, so it is modelled
as an abstract constant whose exact text is irrelevant to the claims. -/
def headers_network_evaluate : String :=
  "<headers_network_evaluate>\n"

/-- Modelled from the spec: fixed linear activation helper text (from the
missing quad_gen.code_blocks module). -/
def linear_activation : String :=
  "<linear_activation>\n"

/-- Modelled from the spec: fixed sigmoid activation helper text (from the
missing quad_gen.code_blocks module). -/
def sigmoid_activation : String :=
  "<sigmoid_activation>\n"

/-- Modelled from the spec: fixed relu activation helper text (from the
missing quad_gen.code_blocks module). -/
def relu_activation : String :=
  "<relu_activation>\n"

/-- The assembled source text: source = ""; source += headers; += the three
activation helpers; += structure; += each output, weight, bias string;
+= the evaluation function. -/
def emitCore (ts : List Tensor) : String :=
  appendAll
    (appendAll
      (appendAll
        ("" ++ headers_network_evaluate ++ linear_activation ++ sigmoid_activation ++
          relu_activation ++ structureStr ts)
        (outputStrsOf ts))
      (weightStrsOf ts))
    (biasStrsOf ts) ++ controllerEvalOf ts

/-- generate, after the adapter: returns the assembled source and the list of
(path, content) file writes performed (one write of the full source when an
output path is supplied, none otherwise). -/
def generateRun (ts : List Tensor) (output_path : Option String) :
    String × List (String × String) :=
  let source := emitCore ts
  (source, match output_path with
    | some p => [(p, source)]
    | none => [])

/-- One named layer group of a JAX/Flax parameter dictionary: optional
kernel and bias entries. -/
structure FlaxLayerParams where
  kernel : Option Tensor
  bias : Option Tensor
deriving DecidableEq

/-- A dictionary-like (JAX/Flax) policy: an optional params entry mapping
layer names to layer groups (a Python dict, modelled as a lookup list). -/
structure FlaxPolicy where
  params : Option (List (String × FlaxLayerParams))
deriving DecidableEq

/-- Python params[layer_name] guarded by layer_name in params. -/
def lookupLayer (nm : String) (ps : List (String × FlaxLayerParams)) :
    Option FlaxLayerParams :=
  (ps.find? (fun x => x.1 == nm)).map (fun x => x.2)

/-- The fixed layer-name list the adapter iterates over. -/
def hiddenNames : List String :=
  ["hidden_0", "hidden_1", "hidden_2", "hidden_3", "hidden_4"]

/-- The tensors one layer group contributes: kernel first, then bias, each
only if present. -/
def layerTensors (l : FlaxLayerParams) : List Tensor :=
  (l.kernel.elim [] (fun t => [t])) ++ (l.bias.elim [] (fun t => [t]))

/-- The JAX/Flax adapter branch of generate: if params is present, visit
hidden_0 .. hidden_4 in that order, appending each found layer's kernel and
bias; otherwise the tensor list stays empty. -/
def extractFlax (p : FlaxPolicy) : List Tensor :=
  match p.params with
  | none => []
  | some ps =>
      hiddenNames.foldl
        (fun acc nm =>
          match lookupLayer nm ps with
          | none => acc
          | some l => acc ++ layerTensors l)
        []

/-- One weight/bias layer pair of the specification's NetworkSpec. -/
structure LayerPair where
  win : Nat
  wout : Nat
  wvals : List (List String)
  bdim : Nat
  bvals : List String
deriving DecidableEq

/-- The tensor list of a NetworkSpec: weight then bias per layer, in order
(the spec's alternation invariant). -/
def tensorsOf (ls : List LayerPair) : List Tensor :=
  (ls.map (fun l => [Tensor.mat l.win l.wout l.wvals, Tensor.vec l.bdim l.bvals])).flatten

/-- Stated from the spec for comparison: the topology-validity predicate the
spec requires generate to enforce (rank-2/rank-1 alternation and at least
two rank-1 tensors). -/
def specAlternating : List Tensor → Bool
  | [] => true
  | Tensor.mat _ _ _ :: Tensor.vec _ _ :: rest => specAlternating rest
  | _ => false

def rank1Count (ts : List Tensor) : Nat :=
  ts.countP fun t =>
    match t with
    | Tensor.vec _ _ => true
    | Tensor.mat _ _ _ => false

def specValidTopology (ts : List Tensor) : Bool :=
  specAlternating ts && decide (2 ≤ rank1Count ts)

/-- The output dimension of the last real layer (layer int(n_layers/2)-1),
read off its structure pair. -/
def lastRealOutDim (ts : List Tensor) : Nat :=
  ((structPairsOf ts).getD (declaredRows ts - 1).toNat (0, 0)).2

/-- Stated from the spec for comparison: the claim that the assignment block
copies exactly one element per control channel, with the channel count equal
to the last real layer's output dimension. -/
def specCopiesPerChannel (ts : List Tensor) : Prop :=
  ∀ j : Nat,
    ((copyStmt j (declaredRows ts - 1)).data <:+: (assignment (declaredRows ts - 1)).data)
      ↔ j < lastRealOutDim ts

/-- Adjacent-pair scanner: does a appear immediately followed by b? -/
def hasPair (a b : Char) : List Char → Bool
  | x :: y :: rest => (x == a && y == b) || hasPair a b (y :: rest)
  | _ => false

/-- The minimum-valid NetworkSpec of the spec's boundary case: exactly two
rank-1 tensors (one real layer plus the reserved std pair). -/
def ts4 : List Tensor :=
  [Tensor.mat 2 2 [["0.5", "-0.25"], ["1.5", "2.0"]],
   Tensor.vec 2 ["1.0", "2.0"],
   Tensor.mat 2 1 [["0.0"], ["0.0"]],
   Tensor.vec 1 ["0.5"]]

/-- An invalid tensor list: a rank-2 tensor immediately followed by another
rank-2 tensor, and no rank-1 tensor at all. -/
def tsBad : List Tensor :=
  [Tensor.mat 2 2 [["1.0", "0.0"], ["0.0", "1.0"]],
   Tensor.mat 2 2 [["1.0", "0.0"], ["0.0", "1.0"]]]

/-- A NetworkSpec with three weight/bias pairs (two real layers plus the
reserved std pair). -/
def ls3 : List LayerPair :=
  [⟨2, 3, [["0.1", "0.2", "0.3"], ["0.4", "0.5", "0.6"]], 3, ["0.0", "0.1", "0.2"]⟩,
   ⟨3, 4, [["1.0", "1.1", "1.2", "1.3"], ["1.4", "1.5", "1.6", "1.7"],
           ["1.8", "1.9", "2.0", "2.1"]], 4, ["0.0", "0.0", "0.0", "0.0"]⟩,
   ⟨4, 2, [["3.0", "3.1"], ["3.2", "3.3"], ["3.4", "3.5"], ["3.6", "3.7"]], 2,
     ["0.5", "0.6"]⟩]

/-- A concrete Flax layer group with both kernel and bias present. -/
def flaxL0 : FlaxLayerParams :=
  ⟨some (Tensor.mat 2 2 [["1.0", "0.0"], ["0.0", "1.0"]]),
   some (Tensor.vec 2 ["0.0", "0.0"])⟩

theorem appendAll_eq_join (l : List String) (s : String) :
    appendAll s l = s ++ String.join l := by
  induction l generalizing s with
  | nil =>
      show s = s ++ ""
      rw [String.append_empty]
  | cons a l ih =>
      show appendAll (s ++ a) l = s ++ String.join (a :: l)
      rw [ih]
      have h1 : String.join (a :: l) = appendAll ("" ++ a) l := rfl
      rw [h1, ih, String.append_assoc]
      rfl

theorem hasPair_cons_of_tail (a b c : Char) (l : List Char)
    (h : hasPair a b l = true) : hasPair a b (c :: l) = true := by
  cases l with
  | nil => simp [hasPair] at h
  | cons d l2 =>
      show ((c == a && d == b) || hasPair a b (d :: l2)) = true
      rw [h, Bool.or_true]

theorem hasPair_append_true_right (a b : Char) (y : List Char)
    (hy : hasPair a b y = true) : ∀ x : List Char, hasPair a b (x ++ y) = true := by
  intro x
  induction x with
  | nil => simpa using hy
  | cons c t ih => exact hasPair_cons_of_tail a b c (t ++ y) ih

theorem hasPair_append_true_left (a b : Char) (y : List Char) :
    ∀ x : List Char, hasPair a b x = true → hasPair a b (x ++ y) = true := by
  intro x
  induction x with
  | nil => intro hx; simp [hasPair] at hx
  | cons c t ih =>
      intro hx
      cases t with
      | nil => simp [hasPair] at hx
      | cons d t2 =>
          have hx2 : ((c == a && d == b) || hasPair a b (d :: t2)) = true := hx
          rcases Bool.or_eq_true_iff.mp hx2 with h1 | h2
          · show ((c == a && d == b) || hasPair a b (d :: (t2 ++ y))) = true
            rw [h1, Bool.true_or]
          · exact hasPair_cons_of_tail a b c ((d :: t2) ++ y) (ih h2)

theorem pair_of_tanhf {l : List Char} (h : ("tanhf").data <:+: l) :
    hasPair 'n' 'h' l = true := by
  obtain ⟨s, t, hst⟩ := h
  rw [← hst, List.append_assoc]
  exact hasPair_append_true_right 'n' 'h' (("tanhf").data ++ t)
    (hasPair_append_true_left 'n' 'h' t ("tanhf").data (by decide)) s

theorem hasPair_append_false_right (a b : Char) (y : List Char)
    (hy : hasPair a b y = false) (hyh : y.head? ≠ some b) :
    ∀ x : List Char, hasPair a b x = false → hasPair a b (x ++ y) = false := by
  intro x
  induction x with
  | nil => intro _; simpa using hy
  | cons c t ih =>
      intro hx
      cases t with
      | nil =>
          cases y with
          | nil => rfl
          | cons y0 ys =>
              have hy0 : (y0 == b) = false := by
                refine beq_eq_false_iff_ne.mpr ?_
                intro e
                exact hyh (by simp [e])
              show ((c == a && y0 == b) || hasPair a b (y0 :: ys)) = false
              rw [hy0, Bool.and_false, hy, Bool.or_false]
      | cons d t2 =>
          have hx2 : ((c == a && d == b) || hasPair a b (d :: t2)) = false := hx
          rcases Bool.or_eq_false_iff.mp hx2 with ⟨h1, h2⟩
          show ((c == a && d == b) || hasPair a b ((d :: t2) ++ y)) = false
          rw [h1, ih h2, Bool.or_false]

theorem not_mem_of_digits (c : Char) (h : c ∈ ("-0123456789").data) :
    (c = 'n' → False) ∧ (c = 'h' → False) := by
  fin_cases h <;> exact ⟨by decide, by decide⟩

theorem toDigitsCore_mem (fuel : Nat) :
    ∀ (n : Nat) (ds : List Char) (c : Char), c ∈ Nat.toDigitsCore 10 fuel n ds →
      c ∈ ds ∨ c ∈ ("0123456789").data := by
  induction fuel with
  | zero =>
      intro n ds c hc
      simp [Nat.toDigitsCore] at hc
      exact Or.inl hc
  | succ fuel ih =>
      intro n ds c hc
      have hdig : (n % 10).digitChar ∈ ("0123456789").data := by
        have hlt : n % 10 < 10 := Nat.mod_lt _ (by norm_num)
        interval_cases h : n % 10 <;> decide
      simp only [Nat.toDigitsCore] at hc
      by_cases hz : n / 10 = 0
      · rw [if_pos hz] at hc
        rcases List.mem_cons.mp hc with h1 | h1
        · exact Or.inr (h1 ▸ hdig)
        · exact Or.inl h1
      · rw [if_neg hz] at hc
        rcases ih (n / 10) ((n % 10).digitChar :: ds) c hc with h1 | h1
        · rcases List.mem_cons.mp h1 with h2 | h2
          · exact Or.inr (h2 ▸ hdig)
          · exact Or.inl h2
        · exact Or.inr h1

theorem natRepr_mem (n : Nat) (c : Char) (h : c ∈ (Nat.repr n).data) :
    c ∈ ("0123456789").data := by
  have h2 : c ∈ Nat.toDigitsCore 10 (n + 1) n [] := h
  rcases toDigitsCore_mem (n + 1) n [] c h2 with h3 | h3
  · simp at h3
  · exact h3

theorem intStr_mem (i : Int) (c : Char) (h : c ∈ (toString i).data) :
    c ∈ ("-0123456789").data := by
  have hsub : ∀ d : Char, d ∈ ("0123456789").data → d ∈ ("-0123456789").data := by
    intro d hd
    exact List.mem_cons_of_mem '-' hd
  cases i with
  | ofNat m => exact hsub c (natRepr_mem m c h)
  | negSucc m =>
      have h2 : c ∈ ('-' :: (Nat.repr (m + 1)).data) := h
      rcases List.mem_cons.mp h2 with h3 | h3
      · rw [h3]; decide
      · exact hsub c (natRepr_mem (m + 1) c h3)

theorem intStr_hasPair (i : Int) : hasPair 'n' 'h' (toString i).data = false := by
  have hn : 'n' ∉ (toString i).data := by
    intro hmem
    exact (not_mem_of_digits 'n' (intStr_mem i 'n' hmem)).1 rfl
  revert hn
  generalize (toString i).data = l
  intro hn
  induction l with
  | nil => rfl
  | cons x t ih =>
      cases t with
      | nil => rfl
      | cons y t2 =>
          have hx : (x == 'n') = false := by
            refine beq_eq_false_iff_ne.mpr ?_
            intro e
            exact hn (by simp [e])
          have ht : 'n' ∉ (y :: t2) := fun hm => hn (List.mem_cons_of_mem x hm)
          show ((x == 'n' && y == 'h') || hasPair 'n' 'h' (y :: t2)) = false
          rw [hx, Bool.false_and, ih ht, Bool.or_false]

theorem intStr_head_ne (i : Int) : (toString i).data.head? ≠ some 'h' := by
  intro h
  have hm : 'h' ∈ (toString i).data := by
    apply List.mem_of_mem_head?
    rw [h]
    rfl
  exact (not_mem_of_digits 'h' (intStr_mem i 'h' hm)).2 rfl

theorem output_for_loop_noPair (n : Int) :
    hasPair 'n' 'h' (output_for_loop n).data = false := by
  show hasPair 'n' 'h' (String.data (output_for_loop n)) = false
  rw [output_for_loop]
  simp only [String.data_append]
  refine hasPair_append_false_right _ _ _ (by decide) (by decide) _ ?_
  refine hasPair_append_false_right _ _ _ (intStr_hasPair _) (intStr_head_ne _) _ ?_
  refine hasPair_append_false_right _ _ _ (by decide) (by decide) _ ?_
  refine hasPair_append_false_right _ _ _ (intStr_hasPair _) (intStr_head_ne _) _ ?_
  refine hasPair_append_false_right _ _ _ (by decide) (by decide) _ ?_
  refine hasPair_append_false_right _ _ _ (intStr_hasPair _) (intStr_head_ne _) _ ?_
  refine hasPair_append_false_right _ _ _ (by decide) (by decide) _ ?_
  refine hasPair_append_false_right _ _ _ (intStr_hasPair _) (intStr_head_ne _) _ ?_
  refine hasPair_append_false_right _ _ _ (by decide) (by decide) _ ?_
  refine hasPair_append_false_right _ _ _ (intStr_hasPair _) (intStr_head_ne _) _ ?_
  refine hasPair_append_false_right _ _ _ (by decide) (by decide) _ ?_
  refine hasPair_append_false_right _ _ _ (intStr_hasPair _) (intStr_head_ne _) _ ?_
  refine hasPair_append_false_right _ _ _ (by decide) (by decide) _ ?_
  refine hasPair_append_false_right _ _ _ (intStr_hasPair _) (intStr_head_ne _) _ ?_
  refine hasPair_append_false_right _ _ _ (by decide) (by decide) _ ?_
  refine hasPair_append_false_right _ _ _ (intStr_hasPair _) (intStr_head_ne _) _ ?_
  decide

theorem no_tanhf_in_output_for_loop (n : Int) :
    ¬ (("tanhf").data <:+: (output_for_loop n).data) := by
  intro h
  have h2 := pair_of_tanhf h
  rw [output_for_loop_noPair n] at h2
  exact Bool.noConfusion h2

theorem tanhf_in_input_for_loop : ("tanhf").data <:+: input_for_loop.data := by decide

theorem tanhf_in_for_loop (n : Int) : ("tanhf").data <:+: (for_loop n).data := by
  have h1 : ("tanhf").data <:+: ("[i] = tanhf(output_").data := by decide
  have h2 : ("[i] = tanhf(output_").data <:+: (for_loop n).data := by
    refine ⟨("\n\t\tfor (int i = 0; i < structure[" ++ toString n ++
        "][1]; i++) \x7b\n\t\t\toutput_" ++ toString n ++
        "[i] = 0;\n\t\t\tfor (int j = 0; j < structure[" ++ toString n ++
        "][0]; j++) \x7b\n\t\t\t\toutput_" ++ toString n ++
        "[i] += output_" ++ toString (n - 1) ++
        "[j] * layer_" ++ toString n ++
        "_weight[j][i];\n\t\t\t\x7d\n\t\t\toutput_" ++ toString n ++
        "[i] += layer_" ++ toString n ++
        "_bias[i];\n\t\t\toutput_" ++ toString n).data,
      (toString n ++ "[i]);\n\t\t\x7d\n\t\t").data, ?_⟩
    rw [for_loop]
    simp only [String.data_append, List.append_assoc]
  exact h1.trans h2

theorem copyStmt_zero_in_assignment (n : Int) :
    (copyStmt 0 n).data <:+: (assignment n).data := by
  refine ⟨("\n\t\t").data,
    ("\n\t\t" ++ copyStmt 1 n ++ "\n\t\t" ++ copyStmt 2 n ++ "\n\t\t" ++ copyStmt 3 n ++
      "\t\n\t").data, ?_⟩
  rw [assignment]
  simp only [String.data_append, List.append_assoc]

theorem copyStmt_one_in_assignment (n : Int) :
    (copyStmt 1 n).data <:+: (assignment n).data := by
  refine ⟨("\n\t\t" ++ copyStmt 0 n ++ "\n\t\t").data,
    ("\n\t\t" ++ copyStmt 2 n ++ "\n\t\t" ++ copyStmt 3 n ++ "\t\n\t").data, ?_⟩
  rw [assignment]
  simp only [String.data_append, List.append_assoc]

theorem copyStmt_two_in_assignment (n : Int) :
    (copyStmt 2 n).data <:+: (assignment n).data := by
  refine ⟨("\n\t\t" ++ copyStmt 0 n ++ "\n\t\t" ++ copyStmt 1 n ++ "\n\t\t").data,
    ("\n\t\t" ++ copyStmt 3 n ++ "\t\n\t").data, ?_⟩
  rw [assignment]
  simp only [String.data_append, List.append_assoc]

theorem copyStmt_three_in_assignment (n : Int) :
    (copyStmt 3 n).data <:+: (assignment n).data := by
  refine ⟨("\n\t\t" ++ copyStmt 0 n ++ "\n\t\t" ++ copyStmt 1 n ++ "\n\t\t" ++ copyStmt 2 n ++
      "\n\t\t").data, ("\t\n\t").data, ?_⟩
  rw [assignment]
  simp only [String.data_append, List.append_assoc]

theorem assignment_suffix (ts : List Tensor) :
    (assignment (declaredRows ts - 1) ++ evalClose).data <:+ (controllerEvalOf ts).data := by
  refine ⟨(appendAll evalHead (forLoopsOf ts)).data, ?_⟩
  rw [controllerEvalOf]
  simp only [String.data_append, List.append_assoc]

theorem tensorsOf_length (ls : List LayerPair) :
    (tensorsOf ls).length = 2 * ls.length := by
  induction ls with
  | nil => rfl
  | cons l rest ih =>
      show ([Tensor.mat l.win l.wout l.wvals, Tensor.vec l.bdim l.bvals] ++
        tensorsOf rest).length = 2 * (l :: rest).length
      rw [List.length_append, ih]
      simp [List.length_cons]
      ring

theorem declaredRows_tensorsOf (ls : List LayerPair) (h : 1 ≤ ls.length) :
    declaredRows (tensorsOf ls) = (ls.length : Int) - 1 := by
  unfold declaredRows nLayersOf
  rw [tensorsOf_length]
  obtain ⟨m, hm⟩ : ∃ m, ls.length = m + 1 := ⟨ls.length - 1, by omega⟩
  rw [hm]
  have h2 : ((2 * (m + 1) : Nat) : Int) - 1 = ((2 * m + 1 : Nat) : Int) := by
    push_cast
    ring
  rw [h2]
  have h3 : Int.tdiv ((2 * m + 1 : Nat) : Int) 2 = (((2 * m + 1) / 2 : Nat) : Int) := rfl
  rw [h3]
  have h4 : (2 * m + 1) / 2 = m := by omega
  rw [h4]
  push_cast
  ring

theorem structPairs_tensorsOf (ls : List LayerPair) (h : ls ≠ []) :
    structPairsOf (tensorsOf ls) = ls.map (fun l => (l.win, l.wout)) := by
  induction ls with
  | nil => exact absurd rfl h
  | cons l rest ih =>
      cases rest with
      | nil => rfl
      | cons l2 rest2 =>
          have hlen : (tensorsOf (l2 :: rest2)).length = 2 * (l2 :: rest2).length :=
            tensorsOf_length (l2 :: rest2)
          obtain ⟨j, hj⟩ : ∃ j, (tensorsOf (l2 :: rest2)).length = j + 2 := by
            refine ⟨2 * (l2 :: rest2).length - 2, ?_⟩
            rw [hlen]
            simp only [List.length_cons]
            omega
          have hstep : tensorsOf (l :: l2 :: rest2) =
              Tensor.mat l.win l.wout l.wvals :: Tensor.vec l.bdim l.bvals ::
                tensorsOf (l2 :: rest2) := rfl
          unfold structPairsOf realTensors
          rw [hstep]
          simp only [List.length_cons, hj]
          have htake : (j + 2 + 1 + 1) - 1 = (j + 2) + 1 := by omega
          rw [htake, List.take_succ_cons, List.take_succ_cons]
          simp only [List.filterMap_cons]
          have ihx := ih (by simp)
          unfold structPairsOf realTensors at ihx
          rw [hj] at ihx
          have htake2 : (j + 2) - 1 = j + 1 := by omega
          rw [htake2] at ihx
          rw [ihx]
          rfl

theorem emitCore_parts (ts : List Tensor) :
    emitCore ts =
      "" ++ headers_network_evaluate ++ linear_activation ++ sigmoid_activation ++
        relu_activation ++ structureStr ts ++ String.join (outputStrsOf ts) ++
        String.join (weightStrsOf ts) ++ String.join (biasStrsOf ts) ++
        controllerEvalOf ts := by
  rw [emitCore, appendAll_eq_join, appendAll_eq_join, appendAll_eq_join]

theorem lookupLayer_cons_ne (nm m : String) (l : FlaxLayerParams)
    (ps : List (String × FlaxLayerParams)) (h : (nm == m) = false) :
    lookupLayer m ((nm, l) :: ps) = lookupLayer m ps := by
  unfold lookupLayer
  simp [List.find?_cons, h]

theorem extractFlax_foldl (ps : List (String × FlaxLayerParams)) :
    ∀ (names : List String) (acc : List Tensor),
      names.foldl
        (fun acc nm =>
          match lookupLayer nm ps with
          | none => acc
          | some l => acc ++ layerTensors l)
        acc
      = acc ++ (names.map (fun m => (lookupLayer m ps).elim [] layerTensors)).flatten := by
  intro names
  induction names with
  | nil => intro acc; simp
  | cons m names ih =>
      intro acc
      cases hm : lookupLayer m ps with
      | none =>
          show names.foldl _ (match lookupLayer m ps with
            | none => acc
            | some l => acc ++ layerTensors l) = _
          rw [hm]
          rw [ih acc]
          simp [hm]
      | some l =>
          show names.foldl _ (match lookupLayer m ps with
            | none => acc
            | some l => acc ++ layerTensors l) = _
          rw [hm]
          rw [ih (acc ++ layerTensors l)]
          simp [hm, List.append_assoc]

theorem extractFlax_eq (qs : List (String × FlaxLayerParams)) :
    extractFlax ⟨some qs⟩ =
      (hiddenNames.map (fun m => (lookupLayer m qs).elim [] layerTensors)).flatten := by
  simp only [extractFlax]
  rw [extractFlax_foldl qs hiddenNames []]
  rfl

theorem pyRange_length (a b : Int) : (pyRange a b).length = (b - a).toNat := by
  unfold pyRange
  rw [List.length_map, List.length_range]

theorem for_loop_at_two :
    for_loop 2 = "\n\t\tfor (int i = 0; i < structure[2][1]; i++) \x7b\n\t\t\toutput_2[i] = 0;\n\t\t\tfor (int j = 0; j < structure[2][0]; j++) \x7b\n\t\t\t\toutput_2[i] += output_1[j] * layer_2_weight[j][i];\n\t\t\t\x7d\n\t\t\toutput_2[i] += layer_2_bias[i];\n\t\t\toutput_2[i] = tanhf(output_2[i]);\n\t\t\x7d\n\t\t" := by
  decide

theorem output_for_loop_at_one :
    output_for_loop 1 = "\n\t\tfor (int i = 0; i < structure[1][1]; i++) \x7b\n\t\t\toutput_1[i] = 0;\n\t\t\tfor (int j = 0; j < structure[1][0]; j++) \x7b\n\t\t\t\toutput_1[i] += output_0[j] * layer_1_weight[j][i];\n\t\t\t\x7d\n\t\t\toutput_1[i] += layer_1_bias[i];\n\t\t\x7d\n\t\t" := by
  decide

theorem assignment_at_three :
    assignment 3 = "\n\t\tcontrol_n[0] = output_3[0];\n\t\tcontrol_n[1] = output_3[1];\n\t\tcontrol_n[2] = output_3[2];\n\t\tcontrol_n[3] = output_3[3];\t\n\t" := by
  decide

/-- C1 (amended): for every NetworkSpec with at least two real layers, the
emitted evaluation loops number one per real layer; every loop except the
last contains the per-element tanhf application, and the last loop is the
affine-only loop, containing no tanhf at all. -/
theorem tanh_every_layer_but_last (ls : List LayerPair) (h : 3 ≤ ls.length) :
    (forLoopsOf (tensorsOf ls)).length = ls.length - 1 ∧
    (∀ s ∈ (forLoopsOf (tensorsOf ls)).dropLast, ("tanhf").data <:+: s.data) ∧
    (forLoopsOf (tensorsOf ls)).getLastD "" = output_for_loop ((ls.length : Int) - 2) ∧
    ¬ (("tanhf").data <:+: ((forLoopsOf (tensorsOf ls)).getLastD "").data) := by
  have hR : declaredRows (tensorsOf ls) = (ls.length : Int) - 1 :=
    declaredRows_tensorsOf ls (by omega)
  have hE : forLoopsOf (tensorsOf ls) =
      (input_for_loop :: (pyRange 1 (declaredRows (tensorsOf ls) - 1)).map for_loop) ++
        [output_for_loop (declaredRows (tensorsOf ls) - 1)] := rfl
  refine ⟨?_, ?_, ?_, ?_⟩
  · rw [hE, hR]
    simp only [List.length_append, List.length_cons, List.length_map, pyRange_length,
      List.length_nil]
    omega
  · rw [hE, List.dropLast_concat]
    intro s hs
    rcases List.mem_cons.mp hs with h1 | h1
    · rw [h1]; exact tanhf_in_input_for_loop
    · obtain ⟨m, _, rfl⟩ := List.mem_map.mp h1
      exact tanhf_in_for_loop m
  · rw [hE, List.getLastD_concat, hR]
    have h2 : (ls.length : Int) - 1 - 1 = (ls.length : Int) - 2 := by ring
    rw [h2]
  · rw [hE, List.getLastD_concat]
    exact no_tanhf_in_output_for_loop _

/-- C1 witness: the amended theorem instantiated on the concrete
three-pair NetworkSpec ls3 (two real layers). -/
theorem tanh_every_layer_but_last_witness :
    (forLoopsOf (tensorsOf ls3)).length = ls3.length - 1 ∧
    (∀ s ∈ (forLoopsOf (tensorsOf ls3)).dropLast, ("tanhf").data <:+: s.data) ∧
    (forLoopsOf (tensorsOf ls3)).getLastD "" = output_for_loop ((ls3.length : Int) - 2) ∧
    ¬ (("tanhf").data <:+: ((forLoopsOf (tensorsOf ls3)).getLastD "").data) :=
  tanh_every_layer_but_last ls3 (by decide)

/-- C1 counterexample: on the minimum valid NetworkSpec (one real layer),
the emitted routine applies tanhf to the last (and only) real layer's
output, which the claim says must stay linear. -/
theorem single_layer_tanh_applied :
    declaredRows ts4 = 1 ∧
    ("output_0[i] = tanhf(output_0[i]);").data <:+: (controllerEvalOf ts4).data := by
  exact ⟨rfl, by decide⟩

/-- C2 (amended): the routine ends with the assignment block followed by the
closing bracket, and that block copies exactly the four fixed channels
control_n[0..3] from the last layer's buffer, regardless of dimensions. -/
theorem control_copy_fixed_four (ts : List Tensor) :
    ((assignment (declaredRows ts - 1) ++ evalClose).data <:+ (controllerEvalOf ts).data) ∧
    ((copyStmt 0 (declaredRows ts - 1)).data <:+: (assignment (declaredRows ts - 1)).data) ∧
    ((copyStmt 1 (declaredRows ts - 1)).data <:+: (assignment (declaredRows ts - 1)).data) ∧
    ((copyStmt 2 (declaredRows ts - 1)).data <:+: (assignment (declaredRows ts - 1)).data) ∧
    ((copyStmt 3 (declaredRows ts - 1)).data <:+: (assignment (declaredRows ts - 1)).data) :=
  ⟨assignment_suffix ts, copyStmt_zero_in_assignment _, copyStmt_one_in_assignment _,
    copyStmt_two_in_assignment _, copyStmt_three_in_assignment _⟩

/-- C2 counterexample: on ts4 the last real layer has output dimension 2,
yet the emitted assignment block also copies channel 3; the claimed
one-copy-per-channel property fails. -/
theorem control_channels_counterexample : ¬ specCopiesPerChannel ts4 := by
  intro hcl
  have h3 := (hcl 3).mp (copyStmt_three_in_assignment (declaredRows ts4 - 1))
  have h4 : lastRealOutDim ts4 = 2 := rfl
  rw [h4] at h3
  omega

/-- C3 counterexample: a tensor list with two adjacent rank-2 tensors and no
rank-1 tensor violates the spec topology invariant, yet generation proceeds
and writes an output file. -/
theorem invalid_topology_counterexample :
    specValidTopology tsBad = false ∧
    (generateRun tsBad (some "network_evaluate.c")).2 =
      [("network_evaluate.c", emitCore tsBad)] :=
  ⟨by decide, rfl⟩

/-- C3 (amended): generate performs no topology validation and never fails:
for every tensor list it returns assembled source, and a supplied output
path receives exactly one write of that source. -/
theorem generation_never_fails (ts : List Tensor) (p : String) :
    (generateRun ts (some p)).2 = [(p, emitCore ts)] ∧ (generateRun ts none).2 = [] :=
  ⟨rfl, rfl⟩

/-- C4: on the minimum valid NetworkSpec the code emits the tanh-applying
first loop and then a second loop over the same buffer that references the
undeclared identifier output_-1: the claimed single linear layer with no
tanh is not what is generated. -/
theorem single_real_layer_bug :
    forLoopsOf ts4 = [input_for_loop, output_for_loop 0] ∧
    ("tanhf").data <:+: input_for_loop.data ∧
    ("output_-1").data <:+: (output_for_loop 0).data := by
  refine ⟨rfl, by decide, by decide⟩

/-- C5 counterexample: on ts4 the structure table declares 1 row but
contains 2 pairs. -/
theorem structure_rows_counterexample :
    declaredRows ts4 = 1 ∧ (structPairsOf ts4).length = 2 ∧
    ((structPairsOf ts4).length : Int) ≠ declaredRows ts4 :=
  ⟨rfl, rfl, by decide⟩

/-- C5 (amended): for a NetworkSpec of L+1 weight/bias pairs (L real layers
plus the reserved std pair) the structure table contains L+1 pairs, the
(in, out) shape of every rank-2 tensor including the std pair's weight, in
declaration order, while its declared row count is L. -/
theorem structure_rows_amended (ls : List LayerPair) (h : ls ≠ []) :
    structPairsOf (tensorsOf ls) = ls.map (fun l => (l.win, l.wout)) ∧
    declaredRows (tensorsOf ls) = (ls.length : Int) - 1 :=
  ⟨structPairs_tensorsOf ls h,
    declaredRows_tensorsOf ls (by
      have := List.length_pos.mpr h
      omega)⟩

/-- C5 witness: the amended theorem instantiated on the concrete
three-pair NetworkSpec ls3. -/
theorem structure_rows_amended_witness :
    structPairsOf (tensorsOf ls3) = ls3.map (fun l => (l.win, l.wout)) ∧
    declaredRows (tensorsOf ls3) = (ls3.length : Int) - 1 :=
  structure_rows_amended ls3 (by decide)

/-- C6 counterexample: a dictionary-like policy with no params entry yields
an empty tensor list and generation still proceeds and writes a file; no
error is signalled. -/
theorem missing_params_counterexample :
    extractFlax ⟨none⟩ = [] ∧
    (generateRun (extractFlax ⟨none⟩) (some "network_evaluate.c")).2.length = 1 :=
  ⟨rfl, rfl⟩

/-- C6 (amended): when the params entry is absent the adapter silently
produces the empty tensor list and generation proceeds, writing the
degenerate source for the empty network. -/
theorem missing_params_silent (p : FlaxPolicy) (h : p.params = none) :
    extractFlax p = [] ∧
    (generateRun (extractFlax p) (some "network_evaluate.c")).2 =
      [("network_evaluate.c", emitCore [])] := by
  obtain ⟨o⟩ := p
  have ho : o = none := h
  subst ho
  exact ⟨rfl, rfl⟩

/-- C6 witness: the amended theorem instantiated on the concrete policy
with no params entry. -/
theorem missing_params_silent_witness :
    extractFlax ⟨none⟩ = [] ∧
    (generateRun (extractFlax ⟨none⟩) (some "network_evaluate.c")).2 =
      [("network_evaluate.c", emitCore [])] :=
  missing_params_silent ⟨none⟩ rfl

/-- C7: the only write generate performs is a single write, to the supplied
path, of the completely assembled source text; with no path there is no
write at all. -/
theorem write_only_after_assembly (ts : List Tensor) (p : String) :
    (generateRun ts (some p)).2 =
      [(p, "" ++ headers_network_evaluate ++ linear_activation ++ sigmoid_activation ++
        relu_activation ++ structureStr ts ++ String.join (outputStrsOf ts) ++
        String.join (weightStrsOf ts) ++ String.join (biasStrsOf ts) ++
        controllerEvalOf ts)] ∧
    (generateRun ts none).2 = [] := by
  refine ⟨?_, rfl⟩
  show [(p, emitCore ts)] = _
  rw [emitCore_parts]

/-- C8: the assembled source is the concatenation, in order, of the
header/activation preamble, the structure table, the output buffers, the
weight arrays, the bias arrays, and the evaluation routine. -/
theorem assembly_order (ts : List Tensor) :
    emitCore ts =
      "" ++ headers_network_evaluate ++ linear_activation ++ sigmoid_activation ++
        relu_activation ++ structureStr ts ++ String.join (outputStrsOf ts) ++
        String.join (weightStrsOf ts) ++ String.join (biasStrsOf ts) ++
        controllerEvalOf ts :=
  emitCore_parts ts

/-- C9: generation is a deterministic function of the tensor list and output
path: equal inputs give byte-identical results. -/
theorem generate_deterministic (ts1 ts2 : List Tensor) (p1 p2 : Option String)
    (h1 : ts1 = ts2) (h2 : p1 = p2) : generateRun ts1 p1 = generateRun ts2 p2 := by
  rw [h1, h2]

/-- C9 witness: determinism instantiated on the concrete NetworkSpec ts4
and a concrete output path. -/
theorem generate_deterministic_witness :
    generateRun ts4 (some "network_evaluate.c") = generateRun ts4 (some "network_evaluate.c") :=
  generate_deterministic ts4 ts4 (some "network_evaluate.c") (some "network_evaluate.c") rfl rfl

/-- C10: the adapter reads only the layers named hidden_0 .. hidden_4, in
that fixed order; an entry under any other name (hidden_5, say) never
affects the extracted tensor list. -/
theorem flax_adapter_fixed_names (nm : String) (l : FlaxLayerParams)
    (ps : List (String × FlaxLayerParams)) (h : nm ∉ hiddenNames) :
    extractFlax ⟨some ((nm, l) :: ps)⟩ = extractFlax ⟨some ps⟩ ∧
    extractFlax ⟨some ps⟩ =
      (hiddenNames.map (fun m => (lookupLayer m ps).elim [] layerTensors)).flatten := by
  have hb : ∀ m ∈ hiddenNames, (nm == m) = false := by
    intro m hm
    refine beq_eq_false_iff_ne.mpr ?_
    intro e
    exact h (e ▸ hm)
  constructor
  · rw [extractFlax_eq, extractFlax_eq]
    congr 1
    apply List.map_congr_left
    intro m hm
    rw [lookupLayer_cons_ne nm m l ps (hb m hm)]
  · exact extractFlax_eq ps

/-- C10 witness: the adapter theorem instantiated on a concrete policy
dictionary carrying an extra layer named hidden_5. -/
theorem flax_adapter_fixed_names_witness :
    extractFlax ⟨some (("hidden_5", flaxL0) :: [("hidden_0", flaxL0)])⟩ =
      extractFlax ⟨some [("hidden_0", flaxL0)]⟩ ∧
    extractFlax ⟨some [("hidden_0", flaxL0)]⟩ =
      (hiddenNames.map
        (fun m => (lookupLayer m [("hidden_0", flaxL0)]).elim [] layerTensors)).flatten :=
  flax_adapter_fixed_names "hidden_5" flaxL0 [("hidden_0", flaxL0)] (by decide)
